import Mathlib

/-!
Verification of `kgtk/cli/zconcat.py` (the zconcat concatenation command).

The Python module builds `sh` command pipelines that concatenate a mixture of
plain and gzip/bzip2/xz-compressed inputs.  We embed its pure planning logic
shallowly:

* byte streams (`sys.stdin.buffer`, `io.BytesIO`) become an explicit
  `ByteStream` (a list of bytes plus a read position);
* the external `file --brief` classifier is an oracle parameter
  `classify : FileOrBytes → String` giving the classifier's stdout;
* a baked `sh` command becomes a `Stage` record carrying the program name,
  its arguments, any bytes fed on its stdin, and its output sink;
* the dynamically named `mkstemp` spill file is abstracted by the fixed
  name `temp_file_name` (its contents are carried in the stage record);
* top-level exception flow in `run` is embedded with `Except`, with the
  body's runtime outcome supplied by an execution oracle.
-/

namespace zconcat

/-- A byte, as produced by reading a binary Python stream. -/
abbrev Byte := Nat

/-- A non-seekable binary stream: the full underlying byte sequence together
with the current read position.  Models `sys.stdin.buffer` / `io.BytesIO`. -/
structure ByteStream where
  data : List Byte
  pos : Nat
  deriving DecidableEq

/-- Python `stream.read(n)`: return the next `min n remaining` bytes and
advance the position by the number of bytes actually read. -/
def ByteStream.read (s : ByteStream) (n : Nat) : List Byte × ByteStream :=
  let chunk := (s.data.drop s.pos).take n
  (chunk, ⟨s.data, s.pos + chunk.length⟩)

/-- The bytes remaining to be read from a stream. -/
def ByteStream.rest (s : ByteStream) : List Byte :=
  s.data.drop s.pos

/-- One line of a byte sequence: the bytes up to and including the first
newline (byte 10), or all bytes when no newline remains.  Used to model
Python `stream.readline()`. -/
def take_line : List Byte → List Byte
  | [] => []
  | b :: bs => if b = 10 then [b] else b :: take_line bs

/-- Python `stream.readline()`: read one line (empty at end of stream). -/
def ByteStream.readline (s : ByteStream) : List Byte × ByteStream :=
  let line := take_line (s.data.drop s.pos)
  (line, ⟨s.data, s.pos + line.length⟩)

/-- The loop of `get_stream_header` for `unit='line'`:
`for i in range(n): line = stream.readline(); ...; header.write(line)`.
(The Python guard `if line is None: break` never fires, since `readline`
returns `b''` at end of stream, never `None`.) -/
def read_lines : Nat → ByteStream → List Byte × ByteStream
  | 0, s => ([], s)
  | n + 1, s =>
    let (line, s') := s.readline
    let (more, s'') := read_lines n s'
    (line ++ more, s'')

/-- The argument of `sh.file` in `determine_file_type`: either a file path
(`sh.file(file, '--brief')`) or an in-memory byte buffer piped on stdin
(`sh.file('-', '--brief', _in=file)`). -/
inductive FileOrBytes
  | path (p : String)
  | bytes (bs : List Byte)
  deriving DecidableEq

/-- Where a baked stage sends its output: a pipe to the next stage
(`_piped=True`), the process's standard output (`sys.stdout.buffer`), or a
named file opened with a Python mode string (`'wb'` truncates, `'ab'`
appends). -/
inductive StageSink
  | pipe
  | stdout
  | file (path : String) (mode : String)
  deriving DecidableEq

/-- One baked `sh` command of a zconcat pipeline: the external program, its
static arguments, the contents of a spill (temp) file operand if the stage
reads one, the live stream bytes fed on its stdin via `_in=` if any, and the
output sink. -/
structure Stage where
  prog : String
  args : List String
  temp_contents : Option (List Byte)
  stream_in : Option (List Byte)
  sink : StageSink
  deriving DecidableEq

/-- Fixed stand-in for the dynamic `tempfile.mkstemp` name produced by
`make_temp_file('kgtk-header.')`. -/
def temp_file_name : String := "/tmp/kgtk-header.tmp"

/-- End-to-end output of the header-reconstruction stage
`sh.cat.bake(temp, '-', _in=stream, ...)`: `cat` emits the temp file's
contents and then everything remaining on its stdin. -/
def Stage.cat_output (s : Stage) : List Byte :=
  s.temp_contents.getD [] ++ s.stream_in.getD []

/-- Selector for the `unit` string argument of `get_stream_header`
(`'line'` or anything else, which the source treats as bytes). -/
inductive StreamUnit
  | line
  | byte
  deriving DecidableEq

/-- `get_stream_header(stream, n, unit, preserve)`: read `n` units (or fewer
if the stream is shorter) and return them; when `preserve` also return the
baked `sh.cat.bake(temp, '-', _in=stream, _piped=True)` command that replays
the header from the spill file followed by the remaining live stream.  The
source returns either `header` or `(header, [cmd])`; we return the header,
the advanced stream, and the optional command uniformly. -/
def get_stream_header (stream : ByteStream) (n : Nat) (unit : StreamUnit)
    (preserve : Bool) : List Byte × ByteStream × Option Stage :=
  let (header, stream') :=
    match unit with
    | .line => read_lines n stream
    | .byte => stream.read n
  if preserve then
    (header, stream', some ⟨"cat", [temp_file_name, "-"], some header,
      some stream'.rest, .pipe⟩)
  else
    (header, stream', none)

/-- The characters Python `bytes.split()` treats as whitespace. -/
def python_space (c : Char) : Bool :=
  c = ' ' ∨ c = '\t' ∨ c = '\n' ∨ c = '\r' ∨ c = '\x0b' ∨ c = '\x0c'

/-- Accumulator loop for `split_words`: `acc` holds the reversed characters
of the word currently being read. -/
def split_words_aux : List Char → List Char → List String
  | [], acc => if acc.isEmpty then [] else [String.mk acc.reverse]
  | c :: t, acc =>
    if python_space c then
      if acc.isEmpty then split_words_aux t []
      else String.mk acc.reverse :: split_words_aux t []
    else split_words_aux t (c :: acc)

/-- Python `bytes.split()` on the classifier's output: split on whitespace
runs, discarding empty fragments. -/
def split_words (s : String) : List String :=
  split_words_aux s.data []

/-- Python `bytes.lower()`: lower-case the ASCII letters. -/
def to_lower (s : String) : String :=
  String.mk (s.data.map Char.toLower)

/-- `determine_file_type(file)`: run the external `file --brief` classifier
(the oracle `classify`) and return `file_type.split()[0].lower()`.  When the
classifier output has no words, `[0]` raises `IndexError`, embedded as
`none`. -/
def determine_file_type (classify : FileOrBytes → String)
    (file : FileOrBytes) : Option String :=
  match split_words (classify file) with
  | [] => none
  | w :: _ => some (to_lower w)

/-- `compression_type_table`: for each known file-type token, its `cat`
(decode) command and optional `compress` (encode) command. -/
def compression_type_table : List (String × (Option String × Option String)) :=
  [("gzip", (some "zcat", some "gzip")),
   ("bzip2", (some "bzcat", some "bzip2")),
   ("xz", (some "xzcat", some "xz")),
   ("text", (some "cat", none))]

/-- `get_cat_command(file_type)`:
`compression_type_table.get(file_type, {}).get('cat', 'cat')`. -/
def get_cat_command (file_type : String) : String :=
  (((compression_type_table.lookup file_type).bind fun e => e.1).getD "cat")

/-- `get_compress_command(file_type)`:
`compression_type_table.get(file_type, {}).get('compress')`, `None` when
absent. -/
def get_compress_command (file_type : String) : Option String :=
  (compression_type_table.lookup file_type).bind fun e => e.2

/-- `compress_switch_to_file_type(gz, bz2, xz)`: target file type from the
command-line switches, with precedence gzip, bzip2, xz, text. -/
def compress_switch_to_file_type (gz bz2 xz : Bool) : String :=
  if gz then "gzip" else if bz2 then "bzip2" else if xz then "xz" else "text"

/-- The final stage's sink in `build_command_1`:
`output = (not _piped and (output or sys.stdout.buffer)) or None`, then
`outfile = open(output, _out_mode)` when `output` is a path.  An empty path
is falsy in Python and falls back to standard output. -/
def out_sink (output : Option String) (_piped : Bool) (_out_mode : String) :
    StageSink :=
  if _piped then .pipe
  else
    match output with
    | none => .stdout
    | some p => if p = "" then .stdout else .file p _out_mode

/-- The source's `input = input or '-'`: Python treats `None` and the empty
string as falsy, so both become the stdin sentinel. -/
def normalize_input (input : Option String) : String :=
  match input with
  | none => "-"
  | some s => if s = "" then "-" else s

/-- The `if input == '-'` branch of `build_command_1`: probe 1024 bytes of
stdin with `get_stream_header(..., preserve=True)`, classify the probe,
and chain the header-replaying `cat` command into the type's cat command
and (when present) the compress command, whose last stage writes to
`sink`. -/
def build_command_1_stdin (classify : FileOrBytes → String)
    (stdin : ByteStream) (sink : StageSink) (compress : Option String) :
    Option (List Stage) × ByteStream :=
  match get_stream_header stdin 1024 .byte true with
  | (header, stdin', hdr_cmd) =>
    match determine_file_type classify (.bytes header) with
    | none => (none, stdin')
    | some file_type =>
      let catcmd := get_cat_command file_type
      match hdr_cmd with
      | none => (none, stdin')  -- unreachable: preserve=True always yields the cat command
      | some h =>
        match compress with
        | some comp =>
          (some [h, ⟨catcmd, [], none, none, .pipe⟩,
                 ⟨comp, ["-c"], none, none, sink⟩], stdin')
        | none =>
          (some [h, ⟨catcmd, [], none, none, sink⟩], stdin')

/-- The named-file branch of `build_command_1`: classify the file by path,
run the type's cat command on it, piped into the compress command when one
is requested; the last stage writes to `sink`. -/
def build_command_1_file (classify : FileOrBytes → String) (inp : String)
    (sink : StageSink) (compress : Option String) (stdin : ByteStream) :
    Option (List Stage) × ByteStream :=
  match determine_file_type classify (.path inp) with
  | none => (none, stdin)
  | some file_type =>
    let catcmd := get_cat_command file_type
    match compress with
    | some comp =>
      (some [⟨catcmd, [inp], none, none, .pipe⟩,
             ⟨comp, ["-c"], none, none, sink⟩], stdin)
    | none =>
      (some [⟨catcmd, [inp], none, none, sink⟩], stdin)

/-- `build_command_1(input, output, gz, bz2, xz, _piped, _out_mode)`: the
pipeline (list of baked stages) for one input.  `classify` is the external
`file --brief` oracle and `stdin` the current state of `sys.stdin.buffer`,
returned updated (the header probe consumes it).  `none` embeds the
`IndexError` that `determine_file_type` raises on a word-less classifier
output.  The two source branches are the two functions above. -/
def build_command_1 (classify : FileOrBytes → String) (stdin : ByteStream)
    (input : Option String) (output : Option String) (gz bz2 xz : Bool)
    (_piped : Bool) (_out_mode : String) :
    Option (List Stage) × ByteStream :=
  let inp := normalize_input input
  let sink := out_sink output _piped _out_mode
  let compress := get_compress_command (compress_switch_to_file_type gz bz2 xz)
  if inp = "-" then build_command_1_stdin classify stdin sink compress
  else build_command_1_file classify inp sink compress stdin

/-- The loop of `build_command`: `command.extend(build_command_1(...))` over
the inputs, with `out_mode='wb'` on the first iteration and `'ab'` from then
on; a raised `IndexError` (embedded `none`) propagates out. -/
def build_command_loop (classify : FileOrBytes → String) (stdin : ByteStream)
    (inputs : List String) (output : Option String) (gz bz2 xz : Bool)
    (out_mode : String) : Option (List Stage) × ByteStream :=
  match inputs with
  | [] => (some [], stdin)
  | inp :: rest =>
    let r := build_command_1 classify stdin (some inp) output gz bz2 xz false out_mode
    match r.1 with
    | none => (none, r.2)
    | some c =>
      let r2 := build_command_loop classify r.2 rest output gz bz2 xz "ab"
      match r2.1 with
      | none => (none, r2.2)
      | some cs => (some (c ++ cs), r2.2)

/-- `build_command(inputs, output, gz, bz2, xz)`: substitute the stdin
sentinel when `inputs` is empty (`inputs.append('-')` mutates the caller's
list, so the final contents of that list are returned as well), then build
and flatten one pipeline per input. -/
def build_command (classify : FileOrBytes → String) (stdin : ByteStream)
    (inputs : List String) (output : Option String) (gz bz2 xz : Bool) :
    (Option (List Stage) × ByteStream) × List String :=
  let inputs' := if inputs.length = 0 then inputs ++ ["-"] else inputs
  (build_command_loop classify stdin inputs' output gz bz2 xz "wb", inputs')

/-- Per-input view of `build_command_loop`: the same stage construction and
`'wb'`/`'ab'` mode sequencing, but keeping each input's pipeline separate
instead of flattening. -/
def build_pipelines (classify : FileOrBytes → String) (stdin : ByteStream)
    (inputs : List String) (output : Option String) (gz bz2 xz : Bool)
    (out_mode : String) : List (Option (List Stage)) :=
  match inputs with
  | [] => []
  | inp :: rest =>
    let r := build_command_1 classify stdin (some inp) output gz bz2 xz false out_mode
    r.1 :: build_pipelines classify r.2 rest output gz bz2 xz "ab"

/-- Flatten a list of per-input pipelines into one plan, failing when any
pipeline failed (a raised `IndexError` propagates). -/
def sequence_pipelines : List (Option (List Stage)) → Option (List Stage)
  | [] => some []
  | none :: _ => none
  | some c :: rest => (sequence_pipelines rest).map (c ++ ·)

/-- A decode stage: a stage running one of the decompression filters listed
as `cat` commands for the compressed entries of `compression_type_table`.
The plain `cat` used for text inputs is the identity filter, not a
decoder. -/
def Stage.isDecode (s : Stage) : Bool :=
  s.prog == "zcat" || s.prog == "bzcat" || s.prog == "xzcat"

/-- An encode stage: a stage running one of the `compress` commands of
`compression_type_table`. -/
def Stage.isEncode (s : Stage) : Bool :=
  s.prog == "gzip" || s.prog == "bzip2" || s.prog == "xz"

/-- Modelled from the spec: the CompressionFormat the spec's TypeSniffer
assigns to a normalized classifier token — a recognized compressor token
maps to itself and "any unrecognized token maps to Text". -/
def spec_sniffed_format (token : String) : String :=
  if token ∈ (["gzip", "bzip2", "xz"] : List String) then token else "text"

/-- Outcome of the body of `run`'s `try:` block once the commands are built:
`run_sh_commands(commands)` returned its last command (whose `.exit_code`
is read), or `sh.SignalException_SIGPIPE` escaped, or some other exception
with message `str(e)` escaped. -/
inductive ExecOutcome
  | completed (exit_code : Int)
  | sigpipe
  | raised (msg : String)
  deriving DecidableEq

/-- The `KGTKException` raised by `run`'s top-level handler. -/
structure KGTKException where
  message : String
  deriving DecidableEq

/-- What a call of `run` does when it does not raise: the Python return
value (`None` on the SIGPIPE path, which falls through after flushing) and
whether `sys.stdout.flush()` ran. -/
structure RunResult where
  returned : Option Int
  flushed_stdout : Bool
  deriving DecidableEq

/-- Python `str(IndexError('list index out of range'))`, the message of the
exception `determine_file_type` raises on a word-less classifier output. -/
def index_error_message : String := "list index out of range"

/-- `run(inputs, output, gz, bz2, xz)`: build the commands, execute them
(the `exec` oracle supplies the runtime outcome), return the last exit
code; catch `sh.SignalException_SIGPIPE` and flush stdout, returning
`None`; re-raise any other exception as
`KGTKException('INTERNAL ERROR: ' + str(e) + '\n')`. -/
def run (classify : FileOrBytes → String) (stdin : ByteStream)
    (inputs : List String) (output : Option String) (gz bz2 xz : Bool)
    (exec : List Stage → ExecOutcome) : Except KGTKException RunResult :=
  match (build_command classify stdin inputs output gz bz2 xz).1.1 with
  | none => .error ⟨"INTERNAL ERROR: " ++ index_error_message ++ "\n"⟩
  | some commands =>
    match exec commands with
    | .completed code => .ok ⟨some code, false⟩
    | .sigpipe => .ok ⟨none, true⟩
    | .raised msg => .error ⟨"INTERNAL ERROR: " ++ msg ++ "\n"⟩

/-- Reading `n` bytes and then the remainder of the stream recovers exactly
the stream's remaining bytes. -/
theorem ByteStream.read_append_rest (s : ByteStream) (n : Nat) :
    (s.read n).1 ++ (s.read n).2.rest = s.rest := by
  have hdd : ∀ k, s.data.drop (s.pos + k) = (s.data.drop s.pos).drop k :=
    fun k => (List.drop_drop k s.pos s.data).symm
  simp only [ByteStream.read, ByteStream.rest, hdd]
  generalize s.data.drop s.pos = r
  rcases Nat.le_total n r.length with h | h
  · rw [List.length_take, Nat.min_eq_left h, List.take_append_drop]
  · rw [List.take_of_length_le h, List.drop_length, List.append_nil]

/-- On the literal stdin sentinel, `build_command_1` takes its stdin
branch. -/
theorem build_command_1_some_dash (classify : FileOrBytes → String)
    (stdin : ByteStream) (output : Option String) (gz bz2 xz _piped : Bool)
    (mode : String) :
    build_command_1 classify stdin (some "-") output gz bz2 xz _piped mode =
      build_command_1_stdin classify stdin (out_sink output _piped mode)
        (get_compress_command (compress_switch_to_file_type gz bz2 xz)) := rfl

/-- When the stdin branch of `build_command_1` succeeds, the pipeline
starts with the header-reconstruction `cat` stage produced by
`get_stream_header(stdin, 1024, 'byte', True)`. -/
theorem build_command_1_stdin_head (classify : FileOrBytes → String)
    (stdin : ByteStream) (sink : StageSink) (compress : Option String)
    (plan : List Stage)
    (h : (build_command_1_stdin classify stdin sink compress).1 = some plan) :
    ∃ st rest, plan = st :: rest ∧ st.prog = "cat" ∧
      st.args = [temp_file_name, "-"] ∧
      st.temp_contents = some ((stdin.read 1024).1) ∧
      st.stream_in = some ((stdin.read 1024).2.rest) ∧
      st.sink = .pipe := by
  rcases hft : determine_file_type classify (.bytes ((stdin.read 1024).1)) with _ | ft
  · simp [ByteStream.read] at hft
    simp [build_command_1_stdin, get_stream_header, ByteStream.read, hft] at h
  · simp [ByteStream.read] at hft
    rcases compress with _ | comp
    · simp [build_command_1_stdin, get_stream_header, ByteStream.read, hft] at h
      subst h
      refine ⟨_, _, rfl, rfl, rfl, ?_, ?_, rfl⟩
      · simp [ByteStream.read]
      · simp [ByteStream.read, ByteStream.rest]
    · simp [build_command_1_stdin, get_stream_header, ByteStream.read, hft] at h
      subst h
      refine ⟨_, _, rfl, rfl, rfl, ?_, ?_, rfl⟩
      · simp [ByteStream.read]
      · simp [ByteStream.read, ByteStream.rest]

end zconcat

/-- C1: Header-peek round-trip: `get_stream_header` with `preserve=True`
returns a probe of at most `n` units and a reconstructed command whose
end-to-end output is the probe bytes followed by every remaining byte of
the original stream (also when the stream is shorter than `n`); for
standard input (`build_command_1` on the `'-'` sentinel) the probe size is
1024 bytes. -/
theorem c1_header_peek_roundtrip (s : zconcat.ByteStream) (n : Nat)
    (classify : zconcat.FileOrBytes → String) (stdin : zconcat.ByteStream)
    (output : Option String) (gz bz2 xz : Bool) (mode : String)
    (plan : List zconcat.Stage)
    (h : (zconcat.build_command_1 classify stdin (some "-") output gz bz2 xz
      false mode).1 = some plan) :
    (zconcat.get_stream_header s n .byte true).1.length ≤ n ∧
    (∃ st, (zconcat.get_stream_header s n .byte true).2.2 = some st ∧
      st.cat_output = s.rest) ∧
    ∃ st rest, plan = st :: rest ∧
      st.temp_contents = some (stdin.rest.take 1024) ∧
      st.cat_output = stdin.rest := by
  refine ⟨?_, ?_, ?_⟩
  · simp [zconcat.get_stream_header, zconcat.ByteStream.read]
  · refine ⟨_, rfl, ?_⟩
    simp only [zconcat.get_stream_header, zconcat.Stage.cat_output, Option.getD]
    exact s.read_append_rest n
  · rw [zconcat.build_command_1_some_dash] at h
    obtain ⟨st, rest, hplan, _, _, htemp, hstream, _⟩ :=
      zconcat.build_command_1_stdin_head classify stdin _ _ plan h
    refine ⟨st, rest, hplan, ?_, ?_⟩
    · rw [htemp]
      simp [zconcat.ByteStream.read, zconcat.ByteStream.rest]
    · simp only [zconcat.Stage.cat_output, htemp, hstream, Option.getD]
      exact stdin.read_append_rest 1024

/-- Witness for C1 at a concrete stream and stdin. -/
theorem c1_header_peek_roundtrip_witness :
    (zconcat.get_stream_header ⟨[1, 2, 3], 0⟩ 2 .byte true).1.length ≤ 2 ∧
    (∃ st, (zconcat.get_stream_header ⟨[1, 2, 3], 0⟩ 2 .byte true).2.2 = some st ∧
      st.cat_output = zconcat.ByteStream.rest ⟨[1, 2, 3], 0⟩) ∧
    (∃ st rest,
      ([⟨"cat", [zconcat.temp_file_name, "-"], some [7, 8], some [], .pipe⟩,
        ⟨"cat", [], none, none, .stdout⟩] : List zconcat.Stage) = st :: rest ∧
      st.temp_contents = some ((zconcat.ByteStream.rest ⟨[7, 8], 0⟩).take 1024) ∧
      st.cat_output = zconcat.ByteStream.rest ⟨[7, 8], 0⟩) :=
  c1_header_peek_roundtrip ⟨[1, 2, 3], 0⟩ 2 (fun _ => "ASCII text") ⟨[7, 8], 0⟩
    none false false false "wb"
    [⟨"cat", [zconcat.temp_file_name, "-"], some [7, 8], some [], .pipe⟩,
     ⟨"cat", [], none, none, .stdout⟩] (by decide)

namespace zconcat

/-- The only file sink `out_sink` can produce carries the supplied mode. -/
theorem out_sink_mode (output : Option String) (_piped : Bool)
    (mode p m : String) (h : out_sink output _piped mode = .file p m) :
    m = mode := by
  unfold out_sink at h
  cases _piped with
  | true => simp at h
  | false =>
    cases output with
    | none => simp at h
    | some q =>
      by_cases hq : q = ""
      · simp [hq] at h
      · simp [hq] at h
        exact h.2.symm

/-- Every stage of a stdin-branch pipeline writes either to a pipe or to
the supplied sink. -/
theorem build_command_1_stdin_sinks (classify : FileOrBytes → String)
    (stdin : ByteStream) (sink : StageSink) (compress : Option String)
    (plan : List Stage)
    (h : (build_command_1_stdin classify stdin sink compress).1 = some plan) :
    ∀ st ∈ plan, st.sink = .pipe ∨ st.sink = sink := by
  rcases hft : determine_file_type classify (.bytes ((stdin.read 1024).1)) with _ | ft
  · simp [ByteStream.read] at hft
    simp [build_command_1_stdin, get_stream_header, ByteStream.read, hft] at h
  · simp [ByteStream.read] at hft
    rcases compress with _ | comp
    · simp [build_command_1_stdin, get_stream_header, ByteStream.read, hft] at h
      subst h
      intro st hst
      simp only [List.mem_cons, List.not_mem_nil, or_false] at hst
      rcases hst with rfl | rfl
      · exact Or.inl rfl
      · exact Or.inr rfl
    · simp [build_command_1_stdin, get_stream_header, ByteStream.read, hft] at h
      subst h
      intro st hst
      simp only [List.mem_cons, List.not_mem_nil, or_false] at hst
      rcases hst with rfl | rfl | rfl
      · exact Or.inl rfl
      · exact Or.inl rfl
      · exact Or.inr rfl

/-- Every stage of a named-file pipeline writes either to a pipe or to the
supplied sink. -/
theorem build_command_1_file_sinks (classify : FileOrBytes → String)
    (inp : String) (sink : StageSink) (compress : Option String)
    (stdin : ByteStream) (plan : List Stage)
    (h : (build_command_1_file classify inp sink compress stdin).1 = some plan) :
    ∀ st ∈ plan, st.sink = .pipe ∨ st.sink = sink := by
  rcases hft : determine_file_type classify (.path inp) with _ | ft
  · simp [build_command_1_file, hft] at h
  · rcases compress with _ | comp
    · simp [build_command_1_file, hft] at h
      subst h
      intro st hst
      simp only [List.mem_cons, List.not_mem_nil, or_false] at hst
      rcases hst with rfl
      · exact Or.inr rfl
    · simp [build_command_1_file, hft] at h
      subst h
      intro st hst
      simp only [List.mem_cons, List.not_mem_nil, or_false] at hst
      rcases hst with rfl | rfl
      · exact Or.inl rfl
      · exact Or.inr rfl

/-- `build_command_1` unfolded to its two branches. -/
theorem build_command_1_eq (classify : FileOrBytes → String)
    (stdin : ByteStream) (input : Option String) (output : Option String)
    (gz bz2 xz _piped : Bool) (mode : String) :
    build_command_1 classify stdin input output gz bz2 xz _piped mode =
      if normalize_input input = "-" then
        build_command_1_stdin classify stdin (out_sink output _piped mode)
          (get_compress_command (compress_switch_to_file_type gz bz2 xz))
      else
        build_command_1_file classify (normalize_input input)
          (out_sink output _piped mode)
          (get_compress_command (compress_switch_to_file_type gz bz2 xz))
          stdin := rfl

/-- Every stage of a `build_command_1` pipeline writes either to a pipe or
to `out_sink output _piped mode`. -/
theorem build_command_1_sinks (classify : FileOrBytes → String)
    (stdin : ByteStream) (input : Option String) (output : Option String)
    (gz bz2 xz _piped : Bool) (mode : String) (plan : List Stage)
    (h : (build_command_1 classify stdin input output gz bz2 xz _piped mode).1
      = some plan) :
    ∀ st ∈ plan, st.sink = .pipe ∨ st.sink = out_sink output _piped mode := by
  rw [build_command_1_eq] at h
  by_cases hin : normalize_input input = "-"
  · rw [if_pos hin] at h
    exact build_command_1_stdin_sinks _ _ _ _ _ h
  · rw [if_neg hin] at h
    exact build_command_1_file_sinks _ _ _ _ _ _ h

/-- Any file sink appearing in a `build_command_1` pipeline was opened with
the `_out_mode` passed in. -/
theorem build_command_1_mode (classify : FileOrBytes → String)
    (stdin : ByteStream) (input : Option String) (output : Option String)
    (gz bz2 xz _piped : Bool) (mode : String) (plan : List Stage)
    (h : (build_command_1 classify stdin input output gz bz2 xz _piped mode).1
      = some plan) :
    ∀ st ∈ plan, ∀ p m, st.sink = .file p m → m = mode := by
  intro st hst p m hfile
  rcases build_command_1_sinks classify stdin input output gz bz2 xz _piped mode
      plan h st hst with hp | hs
  · rw [hfile] at hp
    exact StageSink.noConfusion hp
  · rw [hfile] at hs
    exact out_sink_mode output _piped mode p m hs.symm

/-- Write-mode sequencing of the per-input pipelines: the pipeline at index
0 uses the initial mode, every later pipeline uses `'ab'`. -/
theorem build_pipelines_mode (classify : FileOrBytes → String)
    (output : Option String) (gz bz2 xz : Bool) :
    ∀ (inputs : List String) (stdin : ByteStream) (mode : String) (i : Nat)
      (plan : List Stage),
      (build_pipelines classify stdin inputs output gz bz2 xz mode).get? i
        = some (some plan) →
      ∀ st ∈ plan, ∀ p m, st.sink = .file p m →
        m = if i = 0 then mode else "ab"
  | [], stdin, mode, i, plan, h => by simp [build_pipelines] at h
  | inp :: rest, stdin, mode, 0, plan, h => by
    simp only [build_pipelines, List.get?] at h
    injection h with h
    intro st hst p m hf
    simpa using build_command_1_mode classify stdin (some inp) output gz bz2 xz
      false mode plan h st hst p m hf
  | inp :: rest, stdin, mode, i + 1, plan, h => by
    simp only [build_pipelines, List.get?] at h
    intro st hst p m hf
    have hm := build_pipelines_mode classify output gz bz2 xz rest
      (build_command_1 classify stdin (some inp) output gz bz2 xz false mode).2
      "ab" i plan h st hst p m hf
    simpa using hm

/-- The flattened plan of `build_command_loop` is the concatenation of the
per-input pipelines (and fails exactly when one of them fails). -/
theorem build_command_loop_eq_pipelines (classify : FileOrBytes → String)
    (output : Option String) (gz bz2 xz : Bool) :
    ∀ (inputs : List String) (stdin : ByteStream) (mode : String),
      (build_command_loop classify stdin inputs output gz bz2 xz mode).1 =
        sequence_pipelines
          (build_pipelines classify stdin inputs output gz bz2 xz mode)
  | [], stdin, mode => rfl
  | inp :: rest, stdin, mode => by
    have ih := build_command_loop_eq_pipelines classify output gz bz2 xz rest
      (build_command_1 classify stdin (some inp) output gz bz2 xz false mode).2
      "ab"
    simp only [build_command_loop, build_pipelines]
    rcases hc : (build_command_1 classify stdin (some inp) output gz bz2 xz
        false mode).1 with _ | c
    · simp [hc, sequence_pipelines]
    · rcases hr : (build_command_loop classify
          (build_command_1 classify stdin (some inp) output gz bz2 xz false
            mode).2 rest output gz bz2 xz "ab").1 with _ | cs
      · rw [hr] at ih
        simp [hc, hr, sequence_pipelines, ← ih]
      · rw [hr] at ih
        simp [hc, hr, sequence_pipelines, ← ih]

end zconcat

/-- C2: Output write-mode law: `build_command` gives the pipeline for input
0 an output opened in truncate mode (`'wb'`) and the pipeline for every
later input an output opened in append mode (`'ab'`), whatever the inputs'
formats; the flattened plan is exactly the concatenation of these
per-input pipelines. -/
theorem c2_out_mode_law (classify : zconcat.FileOrBytes → String)
    (stdin : zconcat.ByteStream) (inputs : List String)
    (output : Option String) (gz bz2 xz : Bool) :
    ((zconcat.build_command classify stdin inputs output gz bz2 xz).1.1 =
      zconcat.sequence_pipelines (zconcat.build_pipelines classify stdin
        (if inputs.length = 0 then inputs ++ ["-"] else inputs)
        output gz bz2 xz "wb")) ∧
    ∀ i plan,
      (zconcat.build_pipelines classify stdin
        (if inputs.length = 0 then inputs ++ ["-"] else inputs)
        output gz bz2 xz "wb").get? i = some (some plan) →
      ∀ st ∈ plan, ∀ p m, st.sink = .file p m →
        m = if i = 0 then "wb" else "ab" := by
  constructor
  · exact zconcat.build_command_loop_eq_pipelines classify output gz bz2 xz _
      stdin "wb"
  · intro i plan h
    exact zconcat.build_pipelines_mode classify output gz bz2 xz _ stdin "wb"
      i plan h

/-- Witness for C2 with two plain files written to a named output file. -/
theorem c2_out_mode_law_witness :
    ("ab" : String) = (if (1 : Nat) = 0 then "wb" else "ab") :=
  (c2_out_mode_law (fun _ => "ASCII text") ⟨[], 0⟩ ["f1", "f2"] (some "out")
      false false false).2 1
    [⟨"cat", ["f2"], none, none, .file "out" "ab"⟩] (by decide)
    ⟨"cat", ["f2"], none, none, .file "out" "ab"⟩ (by decide) "out" "ab" rfl



namespace zconcat

/-- The classifier token is looked up under the four known keys only:
any other token misses the table. -/
theorem lookup_none_of_unknown (t : String) (h1 : t ≠ "gzip")
    (h2 : t ≠ "bzip2") (h3 : t ≠ "xz") (h4 : t ≠ "text") :
    compression_type_table.lookup t = none := by
  simp [compression_type_table, List.lookup, beq_eq_false_iff_ne.mpr h1,
    beq_eq_false_iff_ne.mpr h2, beq_eq_false_iff_ne.mpr h3,
    beq_eq_false_iff_ne.mpr h4]

end zconcat

/-- C3: Classification fallback: a token produced by `determine_file_type`
is the lower-cased first whitespace-delimited word of the classifier's
output, and when it is none of gzip/bzip2/xz/text, `get_cat_command`
decodes it with plain `cat`, exactly as for text. -/
theorem c3_classification_fallback (classify : zconcat.FileOrBytes → String)
    (file : zconcat.FileOrBytes) (t : String)
    (h : zconcat.determine_file_type classify file = some t) :
    (∃ w rest, zconcat.split_words (classify file) = w :: rest ∧
      t = zconcat.to_lower w) ∧
    (t ∉ ["gzip", "bzip2", "xz", "text"] →
      zconcat.get_cat_command t = "cat" ∧
      zconcat.get_cat_command t = zconcat.get_cat_command "text") := by
  constructor
  · unfold zconcat.determine_file_type at h
    rcases hs : zconcat.split_words (classify file) with _ | ⟨w, rest⟩
    · rw [hs] at h
      cases h
    · rw [hs] at h
      injection h with h
      exact ⟨w, rest, rfl, h.symm⟩
  · intro hnot
    simp only [List.mem_cons, List.not_mem_nil, or_false, not_or] at hnot
    obtain ⟨h1, h2, h3, h4⟩ := hnot
    have hcat : zconcat.get_cat_command t = "cat" := by
      simp [zconcat.get_cat_command,
        zconcat.lookup_none_of_unknown t h1 h2 h3 h4]
    exact ⟨hcat, by rw [hcat]; rfl⟩

/-- Witness for C3 at an unrecognized classifier output. -/
theorem c3_classification_fallback_witness :
    (∃ w rest, zconcat.split_words "FOO bar" = w :: rest ∧
      "foo" = zconcat.to_lower w) ∧
    ("foo" ∉ ["gzip", "bzip2", "xz", "text"] →
      zconcat.get_cat_command "foo" = "cat" ∧
      zconcat.get_cat_command "foo" = zconcat.get_cat_command "text") :=
  c3_classification_fallback (fun _ => "FOO bar") (.path "f") "foo" (by decide)

namespace zconcat

/-- `get_compress_command` only ever produces the three encoders of the
table (or nothing). -/
theorem get_compress_command_cases (f : String) :
    get_compress_command f = none ∨ get_compress_command f = some "gzip" ∨
    get_compress_command f = some "bzip2" ∨ get_compress_command f = some "xz" := by
  by_cases h1 : f = "gzip"
  · subst h1
    exact Or.inr (Or.inl rfl)
  · by_cases h2 : f = "bzip2"
    · subst h2
      exact Or.inr (Or.inr (Or.inl rfl))
    · by_cases h3 : f = "xz"
      · subst h3
        exact Or.inr (Or.inr (Or.inr rfl))
      · by_cases h4 : f = "text"
        · subst h4
          exact Or.inl rfl
        · exact Or.inl (by
            simp [get_compress_command, lookup_none_of_unknown f h1 h2 h3 h4])

/-- A token the spec maps to Text is decoded with plain `cat`. -/
theorem cat_of_text (t : String) (h : spec_sniffed_format t = "text") :
    get_cat_command t = "cat" := by
  by_cases h1 : t = "gzip"
  · subst h1
    simp [spec_sniffed_format] at h
  · by_cases h2 : t = "bzip2"
    · subst h2
      simp [spec_sniffed_format] at h
    · by_cases h3 : t = "xz"
      · subst h3
        simp [spec_sniffed_format] at h
      · by_cases h4 : t = "text"
        · subst h4
          rfl
        · simp [get_cat_command, lookup_none_of_unknown t h1 h2 h3 h4]

/-- A token the spec maps to a compressed format is decoded with one of the
decompression filters. -/
theorem decode_of_nontext (t : String) (h : spec_sniffed_format t ≠ "text") :
    (get_cat_command t == "zcat" || get_cat_command t == "bzcat" ||
      get_cat_command t == "xzcat") = true := by
  by_cases h1 : t = "gzip"
  · subst h1
    rfl
  · by_cases h2 : t = "bzip2"
    · subst h2
      rfl
    · by_cases h3 : t = "xz"
      · subst h3
        rfl
      · exact absurd (by simp [spec_sniffed_format, h1, h2, h3]) h

/-- In the text case, the cat stage of a pipeline is not a decoder. -/
theorem not_decode_of_text (t : String) (h : spec_sniffed_format t = "text") :
    (get_cat_command t == "zcat" || get_cat_command t == "bzcat" ||
      get_cat_command t == "xzcat") = false := by
  rw [cat_of_text t h]
  rfl

end zconcat

namespace zconcat

/-- C4 on the stdin branch: the pipeline has no decode stage exactly when
the sniffed format is Text, and then every non-encode stage is plain
`cat`. -/
theorem c4_stdin (classify : FileOrBytes → String) (stdin : ByteStream)
    (sink : StageSink) (f : String) (plan : List Stage) (t : String)
    (h : (build_command_1_stdin classify stdin sink (get_compress_command f)).1
      = some plan)
    (ht : determine_file_type classify (.bytes ((stdin.read 1024).1)) = some t) :
    ((∀ st ∈ plan, st.isDecode = false) ↔ spec_sniffed_format t = "text") ∧
    (spec_sniffed_format t = "text" →
      ∀ st ∈ plan, st.isDecode = false ∧ (st.isEncode = false → st.prog = "cat")) := by
  simp [ByteStream.read] at ht
  rcases get_compress_command_cases f with hc | hc | hc | hc <;>
    rw [hc] at h <;>
    simp [build_command_1_stdin, get_stream_header, ByteStream.read, ht] at h <;>
    subst h
  · constructor
    · constructor
      · intro hall
        by_contra hnt
        have hdec := decode_of_nontext t hnt
        have hcc := hall _ (List.mem_cons_of_mem _ (List.mem_cons_self _ _))
        simp only [Stage.isDecode] at hcc
        rw [hdec] at hcc
        cases hcc
      · intro htext st hst
        simp only [List.mem_cons, List.not_mem_nil, or_false] at hst
        rcases hst with rfl | rfl
        · rfl
        · simp only [Stage.isDecode]
          exact not_decode_of_text t htext
    · intro htext st hst
      simp only [List.mem_cons, List.not_mem_nil, or_false] at hst
      rcases hst with rfl | rfl
      · exact ⟨rfl, fun _ => rfl⟩
      · refine ⟨?_, fun _ => cat_of_text t htext⟩
        simp only [Stage.isDecode]
        exact not_decode_of_text t htext
  all_goals
    constructor
    · constructor
      · intro hall
        by_contra hnt
        have hdec := decode_of_nontext t hnt
        have hcc := hall _ (List.mem_cons_of_mem _ (List.mem_cons_self _ _))
        simp only [Stage.isDecode] at hcc
        rw [hdec] at hcc
        cases hcc
      · intro htext st hst
        simp only [List.mem_cons, List.not_mem_nil, or_false] at hst
        rcases hst with rfl | rfl | rfl
        · rfl
        · simp only [Stage.isDecode]
          exact not_decode_of_text t htext
        · rfl
    · intro htext st hst
      simp only [List.mem_cons, List.not_mem_nil, or_false] at hst
      rcases hst with rfl | rfl | rfl
      · exact ⟨rfl, fun _ => rfl⟩
      · refine ⟨?_, fun _ => cat_of_text t htext⟩
        simp only [Stage.isDecode]
        exact not_decode_of_text t htext
      · refine ⟨rfl, ?_⟩
        intro he
        simp [Stage.isEncode] at he

/-- C4 on the named-file branch. -/
theorem c4_file (classify : FileOrBytes → String) (inp : String)
    (sink : StageSink) (f : String) (stdin : ByteStream)
    (plan : List Stage) (t : String)
    (h : (build_command_1_file classify inp sink (get_compress_command f) stdin).1
      = some plan)
    (ht : determine_file_type classify (.path inp) = some t) :
    ((∀ st ∈ plan, st.isDecode = false) ↔ spec_sniffed_format t = "text") ∧
    (spec_sniffed_format t = "text" →
      ∀ st ∈ plan, st.isDecode = false ∧ (st.isEncode = false → st.prog = "cat")) := by
  rcases get_compress_command_cases f with hc | hc | hc | hc <;>
    rw [hc] at h <;>
    simp [build_command_1_file, ht] at h <;>
    subst h
  · constructor
    · constructor
      · intro hall
        by_contra hnt
        have hdec := decode_of_nontext t hnt
        have hcc := hall _ (List.mem_cons_self _ _)
        simp only [Stage.isDecode] at hcc
        rw [hdec] at hcc
        cases hcc
      · intro htext st hst
        simp only [List.mem_cons, List.not_mem_nil, or_false] at hst
        rcases hst with rfl
        simp only [Stage.isDecode]
        exact not_decode_of_text t htext
    · intro htext st hst
      simp only [List.mem_cons, List.not_mem_nil, or_false] at hst
      rcases hst with rfl
      refine ⟨?_, fun _ => cat_of_text t htext⟩
      simp only [Stage.isDecode]
      exact not_decode_of_text t htext
  all_goals
    constructor
    · constructor
      · intro hall
        by_contra hnt
        have hdec := decode_of_nontext t hnt
        have hcc := hall _ (List.mem_cons_self _ _)
        simp only [Stage.isDecode] at hcc
        rw [hdec] at hcc
        cases hcc
      · intro htext st hst
        simp only [List.mem_cons, List.not_mem_nil, or_false] at hst
        rcases hst with rfl | rfl
        · simp only [Stage.isDecode]
          exact not_decode_of_text t htext
        · rfl
    · intro htext st hst
      simp only [List.mem_cons, List.not_mem_nil, or_false] at hst
      rcases hst with rfl | rfl
      · refine ⟨?_, fun _ => cat_of_text t htext⟩
        simp only [Stage.isDecode]
        exact not_decode_of_text t htext
      · refine ⟨rfl, ?_⟩
        intro he
        simp [Stage.isEncode] at he

end zconcat

/-- C4: Decode-stage invariant: a `build_command_1` pipeline has no decode
stage exactly when the sniffed format of its input is Text (the spec's
mapping of the token), and in the Text case every stage that is not an
encode stage is the plain identity `cat`, so the source feeds the next
stage (or the sink) through `cat` alone. -/
theorem c4_decode_stage_invariant (classify : zconcat.FileOrBytes → String)
    (stdin : zconcat.ByteStream) (input : Option String)
    (output : Option String) (gz bz2 xz : Bool) (mode : String)
    (plan : List zconcat.Stage) (t : String)
    (h : (zconcat.build_command_1 classify stdin input output gz bz2 xz false
      mode).1 = some plan)
    (ht : zconcat.determine_file_type classify
      (if zconcat.normalize_input input = "-"
        then .bytes ((stdin.read 1024).1)
        else .path (zconcat.normalize_input input)) = some t) :
    ((∀ st ∈ plan, st.isDecode = false) ↔
      zconcat.spec_sniffed_format t = "text") ∧
    (zconcat.spec_sniffed_format t = "text" →
      ∀ st ∈ plan, st.isDecode = false ∧
        (st.isEncode = false → st.prog = "cat")) := by
  rw [zconcat.build_command_1_eq] at h
  by_cases hin : zconcat.normalize_input input = "-"
  · rw [if_pos hin] at h
    rw [if_pos hin] at ht
    exact zconcat.c4_stdin classify stdin _ _ plan t h ht
  · rw [if_neg hin] at h
    rw [if_neg hin] at ht
    exact zconcat.c4_file classify _ _ _ stdin plan t h ht

/-- Witness for C4 at a plain-text named file. -/
theorem c4_decode_stage_invariant_witness :
    ((∀ st ∈ ([⟨"cat", ["f"], none, none, .stdout⟩] : List zconcat.Stage),
        st.isDecode = false) ↔ zconcat.spec_sniffed_format "ascii" = "text") ∧
    (zconcat.spec_sniffed_format "ascii" = "text" →
      ∀ st ∈ ([⟨"cat", ["f"], none, none, .stdout⟩] : List zconcat.Stage),
        st.isDecode = false ∧ (st.isEncode = false → st.prog = "cat")) :=
  c4_decode_stage_invariant (fun _ => "ASCII text") ⟨[], 0⟩ (some "f") none
    false false false "wb" [⟨"cat", ["f"], none, none, .stdout⟩] "ascii"
    (by decide) (by decide)

namespace zconcat

/-- When a compression switch is set, the requested type has an encoder. -/
theorem compress_of_nontext (gz bz2 xz : Bool)
    (h : compress_switch_to_file_type gz bz2 xz ≠ "text") :
    get_compress_command (compress_switch_to_file_type gz bz2 xz) ≠ none := by
  cases gz <;> cases bz2 <;> cases xz <;>
    first
      | exact absurd rfl h
      | decide

/-- C7 on the stdin branch: a compressed sniffed format plus a requested
encoder yields both a decode stage and an encode stage. -/
theorem c7_stdin (classify : FileOrBytes → String) (stdin : ByteStream)
    (sink : StageSink) (f : String) (plan : List Stage) (t : String)
    (h : (build_command_1_stdin classify stdin sink (get_compress_command f)).1
      = some plan)
    (ht : determine_file_type classify (.bytes ((stdin.read 1024).1)) = some t)
    (hnt : spec_sniffed_format t ≠ "text")
    (hf : get_compress_command f ≠ none) :
    (∃ st ∈ plan, st.isDecode = true) ∧ (∃ st ∈ plan, st.isEncode = true) := by
  simp [ByteStream.read] at ht
  rcases get_compress_command_cases f with hc | hc | hc | hc
  · exact absurd hc hf
  all_goals
    rw [hc] at h
    simp [build_command_1_stdin, get_stream_header, ByteStream.read, ht] at h
    subst h
    constructor
    · refine ⟨_, List.mem_cons_of_mem _ (List.mem_cons_self _ _), ?_⟩
      simp only [Stage.isDecode]
      exact decode_of_nontext t hnt
    · exact ⟨_, List.mem_cons_of_mem _ (List.mem_cons_of_mem _
        (List.mem_cons_self _ _)), rfl⟩

/-- C7 on the named-file branch. -/
theorem c7_file (classify : FileOrBytes → String) (inp : String)
    (sink : StageSink) (f : String) (stdin : ByteStream)
    (plan : List Stage) (t : String)
    (h : (build_command_1_file classify inp sink (get_compress_command f) stdin).1
      = some plan)
    (ht : determine_file_type classify (.path inp) = some t)
    (hnt : spec_sniffed_format t ≠ "text")
    (hf : get_compress_command f ≠ none) :
    (∃ st ∈ plan, st.isDecode = true) ∧ (∃ st ∈ plan, st.isEncode = true) := by
  rcases get_compress_command_cases f with hc | hc | hc | hc
  · exact absurd hc hf
  all_goals
    rw [hc] at h
    simp [build_command_1_file, ht] at h
    subst h
    constructor
    · refine ⟨_, List.mem_cons_self _ _, ?_⟩
      simp only [Stage.isDecode]
      exact decode_of_nontext t hnt
    · exact ⟨_, List.mem_cons_of_mem _ (List.mem_cons_self _ _), rfl⟩

end zconcat

/-- C7: No passthrough shortcut: when the sniffed format of an input equals
the requested (compressed) output format, the pipeline still contains both
a decode stage and an encode stage. -/
theorem c7_no_passthrough (classify : zconcat.FileOrBytes → String)
    (stdin : zconcat.ByteStream) (input : Option String)
    (output : Option String) (gz bz2 xz : Bool) (mode : String)
    (plan : List zconcat.Stage) (t : String)
    (h : (zconcat.build_command_1 classify stdin input output gz bz2 xz false
      mode).1 = some plan)
    (ht : zconcat.determine_file_type classify
      (if zconcat.normalize_input input = "-"
        then .bytes ((stdin.read 1024).1)
        else .path (zconcat.normalize_input input)) = some t)
    (hmatch : zconcat.spec_sniffed_format t =
      zconcat.compress_switch_to_file_type gz bz2 xz)
    (hcomp : zconcat.compress_switch_to_file_type gz bz2 xz ≠ "text") :
    (∃ st ∈ plan, st.isDecode = true) ∧ (∃ st ∈ plan, st.isEncode = true) := by
  have hnt : zconcat.spec_sniffed_format t ≠ "text" := by
    rw [hmatch]
    exact hcomp
  have hf := zconcat.compress_of_nontext gz bz2 xz hcomp
  rw [zconcat.build_command_1_eq] at h
  by_cases hin : zconcat.normalize_input input = "-"
  · rw [if_pos hin] at h
    rw [if_pos hin] at ht
    exact zconcat.c7_stdin classify stdin _ _ plan t h ht hnt hf
  · rw [if_neg hin] at h
    rw [if_neg hin] at ht
    exact zconcat.c7_file classify _ _ _ stdin plan t h ht hnt hf

/-- Witness for C7: a gzip file recompressed with `--gz` still decodes and
re-encodes. -/
theorem c7_no_passthrough_witness :
    (∃ st ∈ ([⟨"zcat", ["f"], none, none, .pipe⟩,
        ⟨"gzip", ["-c"], none, none, .stdout⟩] : List zconcat.Stage),
      st.isDecode = true) ∧
    (∃ st ∈ ([⟨"zcat", ["f"], none, none, .pipe⟩,
        ⟨"gzip", ["-c"], none, none, .stdout⟩] : List zconcat.Stage),
      st.isEncode = true) :=
  c7_no_passthrough (fun _ => "gzip compressed data") ⟨[], 0⟩ (some "f") none
    true false false "wb"
    [⟨"zcat", ["f"], none, none, .pipe⟩, ⟨"gzip", ["-c"], none, none, .stdout⟩]
    "gzip" (by decide) (by decide) (by decide) (by decide)

/-- C8: Empty-input default: `build_command` on an empty inputs list is the
plan for the single stdin sentinel `'-'`: the same call as for `["-"]`, one
pipeline built by `build_command_1` on `'-'` with truncate mode `'wb'`, and
the sentinel recorded in the inputs list. -/
theorem c8_empty_input_default (classify : zconcat.FileOrBytes → String)
    (stdin : zconcat.ByteStream) (output : Option String) (gz bz2 xz : Bool) :
    (zconcat.build_command classify stdin [] output gz bz2 xz =
      zconcat.build_command classify stdin ["-"] output gz bz2 xz) ∧
    ((zconcat.build_command classify stdin [] output gz bz2 xz).1.1 =
      (zconcat.build_command_1 classify stdin (some "-") output gz bz2 xz
        false "wb").1) ∧
    ((zconcat.build_command classify stdin [] output gz bz2 xz).2 = ["-"]) := by
  refine ⟨rfl, ?_, rfl⟩
  rcases hr : (zconcat.build_command_1 classify stdin (some "-") output gz bz2
      xz false "wb").1 with _ | c
  · simp [zconcat.build_command, zconcat.build_command_loop, hr]
  · simp [zconcat.build_command, zconcat.build_command_loop, hr]

/-- C10: `build_command` appends the stdin sentinel to the caller's list
when it is empty and leaves a non-empty list unchanged; because the
parameter's default is one shared mutable list, a second call through the
default receives the sentinel left by the first call and behaves exactly
like an explicit `["-"]` call. -/
theorem c10_inputs_list_mutation (classify : zconcat.FileOrBytes → String)
    (stdin : zconcat.ByteStream) (inputs : List String)
    (output : Option String) (gz bz2 xz : Bool) :
    (inputs ≠ [] →
      (zconcat.build_command classify stdin inputs output gz bz2 xz).2 =
        inputs) ∧
    ((zconcat.build_command classify stdin [] output gz bz2 xz).2 = ["-"]) ∧
    (∀ (classify2 : zconcat.FileOrBytes → String)
      (stdin2 : zconcat.ByteStream) (output2 : Option String)
      (gz2 bz2' xz2 : Bool),
      zconcat.build_command classify2 stdin2
        ((zconcat.build_command classify stdin [] output gz bz2 xz).2)
        output2 gz2 bz2' xz2 =
      zconcat.build_command classify2 stdin2 ["-"] output2 gz2 bz2' xz2) := by
  refine ⟨?_, rfl, fun _ _ _ _ _ _ => rfl⟩
  intro h
  simp [zconcat.build_command, List.length_eq_zero, h]

/-- Witness for C10 with a one-element inputs list. -/
theorem c10_inputs_list_mutation_witness :
    (zconcat.build_command (fun _ => "ASCII text") ⟨[], 0⟩ ["x"] none
      false false false).2 = ["x"] :=
  ((c10_inputs_list_mutation (fun _ => "ASCII text") ⟨[], 0⟩ ["x"] none
    false false false).1 (by decide))

/-- C6: Downstream-closed handling: when `sh.SignalException_SIGPIPE`
escapes the executed pipeline, `run` catches it, flushes stdout, and
returns normally (Python `None`) with no exception surfaced. -/
theorem c6_downstream_closed (classify : zconcat.FileOrBytes → String)
    (stdin : zconcat.ByteStream) (inputs : List String)
    (output : Option String) (gz bz2 xz : Bool)
    (exec : List zconcat.Stage → zconcat.ExecOutcome)
    (commands : List zconcat.Stage)
    (hb : (zconcat.build_command classify stdin inputs output gz bz2 xz).1.1 =
      some commands)
    (hx : exec commands = .sigpipe) :
    zconcat.run classify stdin inputs output gz bz2 xz exec =
      .ok ⟨none, true⟩ := by
  simp [zconcat.run, hb, hx]

/-- Witness for C6: the consumer closes early on a one-file run. -/
theorem c6_downstream_closed_witness :
    zconcat.run (fun _ => "ASCII text") ⟨[], 0⟩ ["f"] none false false false
      (fun _ => .sigpipe) = .ok ⟨none, true⟩ :=
  c6_downstream_closed (fun _ => "ASCII text") ⟨[], 0⟩ ["f"] none
    false false false (fun _ => .sigpipe)
    [⟨"cat", ["f"], none, none, .stdout⟩] (by decide) rfl

/-- C9: Exception wrapping: any exception other than the SIGPIPE signal
escaping the body of `run` is re-raised as a `KGTKException` whose message
contains the original exception's message. -/
theorem c9_exception_wrapping (classify : zconcat.FileOrBytes → String)
    (stdin : zconcat.ByteStream) (inputs : List String)
    (output : Option String) (gz bz2 xz : Bool)
    (exec : List zconcat.Stage → zconcat.ExecOutcome) (msg : String) :
    (∀ commands,
      (zconcat.build_command classify stdin inputs output gz bz2 xz).1.1 =
        some commands →
      exec commands = .raised msg →
      zconcat.run classify stdin inputs output gz bz2 xz exec =
        .error ⟨"INTERNAL ERROR: " ++ msg ++ "\n"⟩) ∧
    ((zconcat.build_command classify stdin inputs output gz bz2 xz).1.1 =
        none →
      zconcat.run classify stdin inputs output gz bz2 xz exec =
        .error ⟨"INTERNAL ERROR: " ++ zconcat.index_error_message ++ "\n"⟩) ∧
    (∃ pre post, "INTERNAL ERROR: " ++ msg ++ "\n" = pre ++ msg ++ post) := by
  refine ⟨?_, ?_, "INTERNAL ERROR: ", "\n", rfl⟩
  · intro commands hb hx
    simp [zconcat.run, hb, hx]
  · intro hb
    simp [zconcat.run, hb]

/-- Witness for C9 with a concrete raised message. -/
theorem c9_exception_wrapping_witness :
    zconcat.run (fun _ => "ASCII text") ⟨[], 0⟩ ["f"] none false false false
      (fun _ => .raised "boom") =
      .error ⟨"INTERNAL ERROR: " ++ "boom" ++ "\n"⟩ :=
  (c9_exception_wrapping (fun _ => "ASCII text") ⟨[], 0⟩ ["f"] none
    false false false (fun _ => .raised "boom") "boom").1
    [⟨"cat", ["f"], none, none, .stdout⟩] (by decide) rfl
